import Mathlib

/-!
Verification of the derived-data and validation rules of the Bicare360
backend (patient enrollment and hospital-discharge record keeping).

The embedding follows the Python source:
  - calendar dates are CPython `datetime.date` values; subtraction of two
    dates yields a `timedelta` whose `.days` is the difference of the
    proleptic-Gregorian ordinals (`date.toordinal`), and `<` on dates is
    lexicographic comparison of the `(year, month, day)` triples;
  - `DischargeSummary.save` (backend/apps/enrollment/models.py) recomputes
    `length_of_stay_days` from the two dates on every save;
  - `DischargeSummaryCreateSerializer.validate` and
    `AddressSerializer.validate` are the object-level validation hooks;
  - `Patient.age` (backend/apps/patients/models.py) is the read-time age;
  - the discharge-summary list endpoint orders by the view set's default
    `ordering = ['-discharge_date']`, while the model `Meta` declares
    `ordering = ['-discharge_date', '-created_at']`.
-/

/-- A CPython `datetime.date`: a `(year, month, day)` triple. -/
structure PyDate where
  year : Nat
  month : Nat
  day : Nat
deriving DecidableEq, Repr

/-- CPython `datetime._is_leap`: `year % 4 == 0 and (year % 100 != 0 or year % 400 == 0)`. -/
def isLeap (y : Nat) : Bool :=
  y % 4 == 0 && (y % 100 != 0 || y % 400 == 0)

/-- CPython `datetime._days_in_month` (via `_DAYS_IN_MONTH` plus the February leap fix-up). -/
def daysInMonth (y m : Nat) : Nat :=
  match m with
  | 1 => 31
  | 2 => if isLeap y then 29 else 28
  | 3 => 31
  | 4 => 30
  | 5 => 31
  | 6 => 30
  | 7 => 31
  | 8 => 31
  | 9 => 30
  | 10 => 31
  | 11 => 30
  | 12 => 31
  | _ => 0

/-- CPython `datetime._days_before_month`: cumulative day table plus the leap adjustment
after February. -/
def daysBeforeMonth (y m : Nat) : Nat :=
  (match m with
   | 1 => 0
   | 2 => 31
   | 3 => 59
   | 4 => 90
   | 5 => 120
   | 6 => 151
   | 7 => 181
   | 8 => 212
   | 9 => 243
   | 10 => 273
   | 11 => 304
   | 12 => 334
   | _ => 0)
  + (if 2 < m && isLeap y then 1 else 0)

/-- CPython `datetime._days_before_year`: `y*365 + y//4 - y//100 + y//400` with `y = year - 1`. -/
def daysBeforeYear (year : Nat) : Nat :=
  (year - 1) * 365 + (year - 1) / 4 - (year - 1) / 100 + (year - 1) / 400

/-- CPython `date.toordinal`: proleptic Gregorian ordinal, day 1 = 0001-01-01. -/
def PyDate.toOrdinal (d : PyDate) : Nat :=
  daysBeforeYear d.year + daysBeforeMonth d.year d.month + d.day

/-- `(a - b).days` for two CPython dates: difference of their ordinals (exact, signed). -/
def dateSubDays (a b : PyDate) : Int :=
  (a.toOrdinal : Int) - (b.toOrdinal : Int)

/-- CPython `date.__lt__`: lexicographic comparison of the `(year, month, day)` triples. -/
def PyDate.lt (a b : PyDate) : Bool :=
  a.year < b.year
  || (a.year == b.year
      && (a.month < b.month || (a.month == b.month && a.day < b.day)))

/-- A calendar-valid date, as produced by `datetime.date.__new__`'s range checks. -/
def PyDate.valid (d : PyDate) : Prop :=
  1 ≤ d.year ∧ 1 ≤ d.month ∧ d.month ≤ 12 ∧ 1 ≤ d.day ∧ d.day ≤ daysInMonth d.year d.month

instance (d : PyDate) : Decidable d.valid := by
  unfold PyDate.valid
  infer_instance

theorem isLeap_iff (y : Nat) :
    isLeap y = true ↔ (y % 4 = 0 ∧ (y % 100 ≠ 0 ∨ y % 400 = 0)) := by
  simp [isLeap]

theorem daysBeforeYear_mono {n m : Nat} (h : n ≤ m) :
    daysBeforeYear n ≤ daysBeforeYear m := by
  unfold daysBeforeYear
  have h1 : (n - 1) / 4 ≤ (m - 1) / 4 := Nat.div_le_div_right (by omega)
  have h2 : (m - 1) / 100 ≤ (n - 1) / 100 + ((m - 1) - (n - 1)) := by omega
  have h3 : (n - 1) / 400 ≤ (m - 1) / 400 := Nat.div_le_div_right (by omega)
  omega

set_option maxHeartbeats 1000000 in
theorem daysBeforeYear_succ (y : Nat) (h : 1 ≤ y) :
    daysBeforeYear (y + 1) = daysBeforeYear y + (if isLeap y then 366 else 365) := by
  have hil := isLeap_iff y
  have a4 : y % 4 = 0 → y / 4 = (y - 1) / 4 + 1 := by omega
  have b4 : y % 4 ≠ 0 → y / 4 = (y - 1) / 4 := by omega
  have a100 : y % 100 = 0 → y / 100 = (y - 1) / 100 + 1 := by omega
  have b100 : y % 100 ≠ 0 → y / 100 = (y - 1) / 100 := by omega
  have a400 : y % 400 = 0 → y / 400 = (y - 1) / 400 + 1 := by omega
  have b400 : y % 400 ≠ 0 → y / 400 = (y - 1) / 400 := by omega
  have hdiv : y % 400 = 0 → y % 100 = 0 := by omega
  unfold daysBeforeYear
  split
  case isTrue hl =>
    rw [hil] at hl
    omega
  case isFalse hl =>
    rw [hil] at hl
    omega

theorem daysBeforeMonth_add_day_le (y m d : Nat) (h1 : 1 ≤ m) (h2 : m ≤ 12)
    (h3 : d ≤ daysInMonth y m) :
    daysBeforeMonth y m + d ≤ (if isLeap y then 366 else 365) := by
  interval_cases m <;> cases hl : isLeap y <;>
    simp [daysBeforeMonth, daysInMonth, hl] at * <;> omega

theorem daysBeforeMonth_add_day_le_next (y m1 d1 m2 : Nat) (h1 : 1 ≤ m1) (hlt : m1 < m2)
    (h2 : m2 ≤ 12) (hd : d1 ≤ daysInMonth y m1) :
    daysBeforeMonth y m1 + d1 ≤ daysBeforeMonth y m2 := by
  have h3 : m1 ≤ 11 := by omega
  interval_cases m1 <;> interval_cases m2 <;> cases hl : isLeap y <;>
    simp [daysBeforeMonth, daysInMonth, hl] at * <;> omega

/-- `date.toordinal` is strictly monotone with respect to CPython's lexicographic
date comparison, on calendar-valid dates. -/
theorem toOrdinal_lt_of_lt (a b : PyDate) (ha : a.valid) (hb : b.valid)
    (hlt : PyDate.lt a b = true) : a.toOrdinal < b.toOrdinal := by
  obtain ⟨ya, ma, da⟩ := a
  obtain ⟨yb, mb, db⟩ := b
  simp only [PyDate.lt, Bool.or_eq_true, Bool.and_eq_true, decide_eq_true_eq, beq_iff_eq] at hlt
  obtain ⟨hy1, hm1, hm2, hd1, hd2⟩ := ha
  obtain ⟨hy1b, hm1b, hm2b, hd1b, hd2b⟩ := hb
  simp only at hy1 hm1 hm2 hd1 hd2 hy1b hm1b hm2b hd1b hd2b
  unfold PyDate.toOrdinal
  simp only
  rcases hlt with hy | ⟨hy, hm | ⟨hm, hd⟩⟩
  · have e1 : daysBeforeMonth ya ma + da ≤ (if isLeap ya then 366 else 365) :=
      daysBeforeMonth_add_day_le ya ma da hm1 hm2 hd2
    have e2 : daysBeforeYear (ya + 1) = daysBeforeYear ya + (if isLeap ya then 366 else 365) :=
      daysBeforeYear_succ ya hy1
    have e3 : daysBeforeYear (ya + 1) ≤ daysBeforeYear yb := daysBeforeYear_mono hy
    omega
  · subst hy
    have e1 : daysBeforeMonth ya ma + da ≤ daysBeforeMonth ya mb :=
      daysBeforeMonth_add_day_le_next ya ma da mb hm1 hm hm2b hd2
    omega
  · subst hy
    subst hm
    omega

/-- Lexicographic date comparison is trichotomous. -/
theorem pyDate_lt_eq_false_cases (a b : PyDate) (h : PyDate.lt a b = false) :
    a = b ∨ PyDate.lt b a = true := by
  obtain ⟨ya, ma, da⟩ := a
  obtain ⟨yb, mb, db⟩ := b
  simp only [PyDate.lt, Bool.or_eq_false_iff, Bool.and_eq_false_iff, Bool.or_eq_true,
    Bool.and_eq_true, decide_eq_true_eq, decide_eq_false_iff_not, beq_iff_eq, beq_eq_false_iff_ne,
    ne_eq, PyDate.mk.injEq] at h ⊢
  omega

/-- On valid dates, a non-strict comparison transfers to the ordinals. -/
theorem toOrdinal_le_of_not_lt (a b : PyDate) (ha : a.valid) (hb : b.valid)
    (h : PyDate.lt b a = false) : a.toOrdinal ≤ b.toOrdinal := by
  rcases pyDate_lt_eq_false_cases b a h with h1 | h1
  · rw [h1]
  · exact Nat.le_of_lt (toOrdinal_lt_of_lt a b ha hb h1)

/-- In-memory `DischargeSummary` model instance, restricted to the fields the
derivation logic reads or writes (`save` in backend/apps/enrollment/models.py).
The remaining columns (diagnosis, instructions, risk fields, ...) are free text
or enums that `save` copies through unchanged. `length_of_stay_days` is the
Python attribute value, a signed integer before the column constraint applies;
`created_at` is the `auto_now_add` timestamp. -/
structure DischargeSummaryState where
  admission_date : Option PyDate
  discharge_date : Option PyDate
  length_of_stay_days : Int
  created_at : Nat
deriving DecidableEq, Repr

/-- `DischargeSummary.save`: `if self.admission_date and self.discharge_date:
self.length_of_stay_days = (self.discharge_date - self.admission_date).days`,
then the framework save persists the instance. A non-`None` date is truthy. -/
def DischargeSummary.save (s : DischargeSummaryState) : DischargeSummaryState :=
  match s.admission_date, s.discharge_date with
  | some a, some d => { s with length_of_stay_days := dateSubDays d a }
  | _, _ => s

theorem DischargeSummary.save_los (s : DischargeSummaryState) (a d : PyDate)
    (ha : s.admission_date = some a) (hd : s.discharge_date = some d) :
    (DischargeSummary.save s).length_of_stay_days = dateSubDays d a := by
  unfold DischargeSummary.save
  rw [ha, hd]

/-- Input to `DischargeSummaryCreateSerializer.validate`, restricted to the
fields that `validate` reads via `data.get(...)`; an absent key yields `none`.
The other writable fields (diagnoses, instructions, ...) are passed through
without inspection. -/
structure DischargeData where
  admission_date : Option PyDate
  discharge_date : Option PyDate
  follow_up_required : Option Bool
  follow_up_timeframe : Option String
deriving DecidableEq, Repr

/-- The first check of `validate`: `data.get('discharge_date') and
data.get('admission_date')` (a non-`None` date is truthy) guards
`data['discharge_date'] < data['admission_date']`. -/
def dischargeBeforeAdmission (data : DischargeData) : Bool :=
  match data.discharge_date, data.admission_date with
  | some d, some a => PyDate.lt d a
  | _, _ => false

/-- The second check of `validate`: `data.get('follow_up_required')` is truthy
(i.e. the key maps to `True`) and `not data.get('follow_up_timeframe')` (the
key is absent, maps to `None`, or maps to the empty string). -/
def followUpMissing (data : DischargeData) : Bool :=
  (match data.follow_up_required with
   | some b => b
   | none => false)
  && (match data.follow_up_timeframe with
      | some s => s == ""
      | none => true)

/-- `DischargeSummaryCreateSerializer.validate`: raises a field-keyed
`ValidationError` for the first failing check, otherwise returns the data. -/
def DischargeSummaryCreateSerializer.validate (data : DischargeData) :
    Except (String × String) DischargeData :=
  if dischargeBeforeAdmission data then
    Except.error ("discharge_date", "Discharge date cannot be before admission date.")
  else if followUpMissing data then
    Except.error ("follow_up_timeframe", "Follow-up timeframe is required when follow-up is required.")
  else
    Except.ok data

/-- Input to `AddressSerializer.validate`: only the GPS pair is inspected
(`DecimalField` values; the structural check only asks whether each is `None`). -/
structure AddressData where
  latitude : Option Rat
  longitude : Option Rat
deriving DecidableEq

/-- `AddressSerializer.validate`: rejects when exactly one of the two
coordinates is `None`. -/
def AddressSerializer.validate (data : AddressData) : Except String AddressData :=
  if (data.latitude.isSome && data.longitude.isNone)
     || (data.latitude.isNone && data.longitude.isSome) then
    Except.error "Both latitude and longitude must be provided together."
  else
    Except.ok data

/-- `Patient.age`: `today.year - dob.year - ((today.month, today.day) <
(dob.month, dob.day))`, the Python tuple comparison being lexicographic and
the boolean counting as 0 or 1. `today` is `date.today()` read inside the
property, passed explicitly here. -/
def Patient.age (date_of_birth today : PyDate) : Int :=
  (today.year : Int) - (date_of_birth.year : Int) -
    (if today.month < date_of_birth.month
        ∨ (today.month = date_of_birth.month ∧ today.day < date_of_birth.day)
     then 1 else 0)

/-- C1: for every `DischargeSummary` saved with both dates set, the persisted
`length_of_stay_days` equals `discharge_date - admission_date` in whole days,
recomputed on every save regardless of the previously stored value; in
particular (2026-01-01, 2026-01-10) yields 9 and equal dates yield 0. -/
theorem save_computes_length_of_stay (s : DischargeSummaryState) (a d : PyDate)
    (ha : s.admission_date = some a) (hd : s.discharge_date = some d) :
    (DischargeSummary.save s).length_of_stay_days = dateSubDays d a
    ∧ dateSubDays ⟨2026, 1, 10⟩ ⟨2026, 1, 1⟩ = 9
    ∧ (∀ e : PyDate, dateSubDays e e = 0) :=
  ⟨DischargeSummary.save_los s a d ha hd, by decide, fun e => by simp [dateSubDays]⟩

theorem save_computes_length_of_stay_witness :
    (DischargeSummary.save ⟨some ⟨2026, 1, 1⟩, some ⟨2026, 1, 10⟩, 0, 0⟩).length_of_stay_days
      = dateSubDays ⟨2026, 1, 10⟩ ⟨2026, 1, 1⟩ :=
  (save_computes_length_of_stay ⟨some ⟨2026, 1, 1⟩, some ⟨2026, 1, 10⟩, 0, 0⟩
    ⟨2026, 1, 1⟩ ⟨2026, 1, 10⟩ rfl rfl).1

/-- C8: the length-of-stay derivation pass is idempotent: saving an
already-saved record again (dates unchanged) leaves the record, and hence
`length_of_stay_days`, unchanged. -/
theorem save_idempotent (s : DischargeSummaryState) :
    DischargeSummary.save (DischargeSummary.save s) = DischargeSummary.save s := by
  unfold DischargeSummary.save
  cases ha : s.admission_date <;> cases hd : s.discharge_date <;> simp [ha, hd]

/-- C5: with discharge strictly before admission, the length-of-stay
computation performed by `save` stores the exact (negative) integer difference;
no rejection or clamping happens inside the computation. -/
theorem save_negative_length_of_stay (s : DischargeSummaryState) (a d : PyDate)
    (hva : a.valid) (hvd : d.valid)
    (ha : s.admission_date = some a) (hd : s.discharge_date = some d)
    (hlt : PyDate.lt d a = true) :
    (DischargeSummary.save s).length_of_stay_days = dateSubDays d a
    ∧ dateSubDays d a < 0 := by
  refine ⟨DischargeSummary.save_los s a d ha hd, ?_⟩
  have hord := toOrdinal_lt_of_lt d a hvd hva hlt
  unfold dateSubDays
  omega

theorem save_negative_length_of_stay_witness :
    (DischargeSummary.save ⟨some ⟨2026, 1, 10⟩, some ⟨2026, 1, 5⟩, 0, 0⟩).length_of_stay_days
      = dateSubDays ⟨2026, 1, 5⟩ ⟨2026, 1, 10⟩
    ∧ dateSubDays ⟨2026, 1, 5⟩ ⟨2026, 1, 10⟩ < 0 :=
  save_negative_length_of_stay ⟨some ⟨2026, 1, 10⟩, some ⟨2026, 1, 5⟩, 0, 0⟩
    ⟨2026, 1, 10⟩ ⟨2026, 1, 5⟩ (by decide) (by decide) rfl rfl (by decide)

/-- C2: the computed age is `today.year - birth.year`, minus 1 exactly when
`(today.month, today.day)` is lexicographically below `(birth.month,
birth.day)`; it is 0 when the birth date equals today, and goes negative for
future birth dates (no clamp). -/
theorem patient_age_spec (date_of_birth today : PyDate) :
    Patient.age date_of_birth today =
      (today.year : Int) - (date_of_birth.year : Int) -
        (if today.month < date_of_birth.month
            ∨ (today.month = date_of_birth.month ∧ today.day < date_of_birth.day)
         then 1 else 0)
    ∧ Patient.age today today = 0
    ∧ Patient.age ⟨today.year + 1, today.month, today.day⟩ today = -1 := by
  refine ⟨rfl, ?_, ?_⟩
  · simp [Patient.age]
  · simp [Patient.age]

/-- C6: address validation fails exactly when one coordinate is present and
the other absent; both present and both absent both pass. -/
theorem address_coordinates_validate_spec (data : AddressData) :
    ((∃ m, AddressSerializer.validate data = Except.error m)
      ↔ ((data.latitude ≠ none ∧ data.longitude = none)
          ∨ (data.latitude = none ∧ data.longitude ≠ none)))
    ∧ (((data.latitude ≠ none ∧ data.longitude ≠ none)
          ∨ (data.latitude = none ∧ data.longitude = none))
        → AddressSerializer.validate data = Except.ok data) := by
  obtain ⟨lat, lon⟩ := data
  cases lat <;> cases lon <;> simp [AddressSerializer.validate]

/-- C3: with both dates submitted, the validation entry point raises the
`discharge_date` error exactly when discharge is strictly before admission;
equal dates pass the date check and give length-of-stay 0. -/
theorem discharge_dates_validate_spec (data : DischargeData) (a d : PyDate)
    (ha : data.admission_date = some a) (hd : data.discharge_date = some d) :
    ((∃ m, DischargeSummaryCreateSerializer.validate data
        = Except.error ("discharge_date", m)) ↔ PyDate.lt d a = true)
    ∧ (d = a →
        (∀ m, DischargeSummaryCreateSerializer.validate data
          ≠ Except.error ("discharge_date", m))
        ∧ dateSubDays d a = 0) := by
  have hb : dischargeBeforeAdmission data = PyDate.lt d a := by
    unfold dischargeBeforeAdmission
    rw [ha, hd]
  have hnodate : PyDate.lt d a = false →
      ∀ m, DischargeSummaryCreateSerializer.validate data
        ≠ Except.error ("discharge_date", m) := by
    intro hlt m
    simp only [DischargeSummaryCreateSerializer.validate, hb, hlt, Bool.false_eq_true, if_false]
    cases hfm : followUpMissing data <;> simp [hfm]
  constructor
  · cases hlt : PyDate.lt d a
    · simp only [Bool.false_eq_true, iff_false, not_exists]
      exact hnodate hlt
    · simp [DischargeSummaryCreateSerializer.validate, hb, hlt]
  · intro hda
    subst hda
    have hlt : PyDate.lt d d = false := by simp [PyDate.lt]
    exact ⟨hnodate hlt, by simp [dateSubDays]⟩

theorem discharge_dates_validate_spec_witness :
    (∃ m, DischargeSummaryCreateSerializer.validate
        ⟨some ⟨2026, 1, 10⟩, some ⟨2026, 1, 5⟩, none, none⟩
      = Except.error ("discharge_date", m)) :=
  (discharge_dates_validate_spec ⟨some ⟨2026, 1, 10⟩, some ⟨2026, 1, 5⟩, none, none⟩
    ⟨2026, 1, 10⟩ ⟨2026, 1, 5⟩ rfl rfl).1.mpr (by decide)

/-- The follow-up check of `validate`, stated over the raw fields. -/
theorem followUpMissing_iff (data : DischargeData) :
    followUpMissing data = true
      ↔ (data.follow_up_required = some true
          ∧ (data.follow_up_timeframe = none ∨ data.follow_up_timeframe = some "")) := by
  obtain ⟨ad, dd, fr, ft⟩ := data
  unfold followUpMissing
  cases fr with
  | none => simp
  | some b =>
    cases b <;> cases ft <;> simp

/-- C4: when the date check does not fire, validation succeeds exactly when it
is not the case that follow-up is required with an empty or absent timeframe. -/
theorem follow_up_validate_spec (data : DischargeData)
    (hdates : dischargeBeforeAdmission data = false) :
    DischargeSummaryCreateSerializer.validate data = Except.ok data
      ↔ ¬(data.follow_up_required = some true
           ∧ (data.follow_up_timeframe = none ∨ data.follow_up_timeframe = some "")) := by
  have hiff := followUpMissing_iff data
  simp only [DischargeSummaryCreateSerializer.validate, hdates, Bool.false_eq_true, if_false]
  cases hfm : followUpMissing data
  · rw [hfm] at hiff
    simp only [Bool.false_eq_true, false_iff] at hiff
    simp [hiff]
  · rw [hfm] at hiff
    simp only [true_iff] at hiff
    simp [hiff]

theorem follow_up_validate_spec_witness :
    (DischargeSummaryCreateSerializer.validate ⟨none, none, some true, some "1 week"⟩
        = Except.ok ⟨none, none, some true, some "1 week"⟩)
    ∧ ¬(DischargeSummaryCreateSerializer.validate ⟨none, none, some true, some ""⟩
        = Except.ok ⟨none, none, some true, some ""⟩)
    ∧ (DischargeSummaryCreateSerializer.validate ⟨none, none, some false, some ""⟩
        = Except.ok ⟨none, none, some false, some ""⟩) :=
  ⟨(follow_up_validate_spec ⟨none, none, some true, some "1 week"⟩ (by decide)).mpr (by decide),
   fun h => by
     have := (follow_up_validate_spec ⟨none, none, some true, some ""⟩ (by decide)).mp h
     exact this (by decide),
   (follow_up_validate_spec ⟨none, none, some false, some ""⟩ (by decide)).mpr (by decide)⟩

/-- A persisted `DischargeSummary` row as seen by the ordered listing:
the sort keys `discharge_date` (non-null `DateField`) and `created_at`
(`auto_now_add`, modelled as an abstract linear timestamp). -/
structure DischargeRow where
  discharge_date : PyDate
  created_at : Nat
deriving DecidableEq, Repr

/-- The view set's default listing order, `ordering = ['-discharge_date']`
(backend/apps/enrollment/views.py): row `r1` may precede `r2` iff its
discharge date is not smaller. DRF's `OrderingFilter` applies this with
`queryset.order_by('-discharge_date')`, replacing the model default. -/
def viewsetLe (r1 r2 : DischargeRow) : Bool :=
  !(PyDate.lt r1.discharge_date r2.discharge_date)

/-- The model `Meta` default order, `ordering = ['-discharge_date',
'-created_at']` (backend/apps/enrollment/models.py): discharge date
descending, ties broken by creation time descending. -/
def metaLe (r1 r2 : DischargeRow) : Bool :=
  PyDate.lt r2.discharge_date r1.discharge_date
  || (r1.discharge_date == r2.discharge_date && decide (r2.created_at ≤ r1.created_at))

/-- Stable insertion into a sorted list (a row moves past another only when
strictly required by the key, as in a stable ORDER BY). -/
def insertBy (le : α → α → Bool) (x : α) : List α → List α
  | [] => [x]
  | y :: ys => if le x y then x :: y :: ys else y :: insertBy le x ys

/-- Stable sort of the stored rows by the given key. -/
def sortBy (le : α → α → Bool) : List α → List α
  | [] => []
  | x :: xs => insertBy le x (sortBy le xs)

/-- The list is weakly ordered under `le` (every adjacent pair in order). -/
def sortedBy (le : α → α → Bool) : List α → Bool
  | [] => true
  | [_] => true
  | x :: y :: ys => le x y && sortedBy le (y :: ys)

/-- The discharge-summary list endpoint under caller-unspecified ordering:
rows in store order, sorted by the view set's default `['-discharge_date']`. -/
def dischargeSummaryListing (rows : List DischargeRow) : List DischargeRow :=
  sortBy viewsetLe rows

/-- Retrieval under the model `Meta` default ordering
`['-discharge_date', '-created_at']` (used when no queryset override applies). -/
def dischargeSummaryMetaOrdered (rows : List DischargeRow) : List DischargeRow :=
  sortBy metaLe rows

theorem sortedBy_tail (le : α → α → Bool) (y : α) (l : List α)
    (h : sortedBy le (y :: l) = true) : sortedBy le l = true := by
  cases l with
  | nil => rfl
  | cons z zs =>
    simp only [sortedBy, Bool.and_eq_true] at h
    exact h.2

theorem sortedBy_head (le : α → α → Bool) (y z : α) (l : List α)
    (h : sortedBy le (y :: l) = true) (hh : l.head? = some z) : le y z = true := by
  cases l with
  | nil => simp at hh
  | cons w ws =>
    simp only [List.head?, Option.some.injEq] at hh
    subst hh
    simp only [sortedBy, Bool.and_eq_true] at h
    exact h.1

theorem sortedBy_cons_of (le : α → α → Bool) (y : α) (l : List α)
    (hl : sortedBy le l = true) (hhead : ∀ z, l.head? = some z → le y z = true) :
    sortedBy le (y :: l) = true := by
  cases l with
  | nil => rfl
  | cons z zs =>
    simp only [sortedBy, Bool.and_eq_true]
    exact ⟨hhead z rfl, hl⟩

theorem insertBy_head_cases (le : α → α → Bool) (x : α) (l : List α) :
    (insertBy le x l).head? = some x
    ∨ (∃ z, l.head? = some z ∧ (insertBy le x l).head? = some z) := by
  cases l with
  | nil => left; rfl
  | cons y ys =>
    unfold insertBy
    cases hxy : le x y
    · right
      exact ⟨y, rfl, by simp [hxy]⟩
    · left
      simp [hxy]

theorem sortedBy_insertBy (le : α → α → Bool)
    (htot : ∀ a b, le a b = true ∨ le b a = true) (x : α) (l : List α)
    (h : sortedBy le l = true) : sortedBy le (insertBy le x l) = true := by
  induction l with
  | nil => rfl
  | cons y ys ih =>
    unfold insertBy
    cases hxy : le x y
    · simp only [Bool.false_eq_true, if_false]
      have hys : sortedBy le ys = true := sortedBy_tail le y ys h
      have hle : le y x = true := (htot x y).resolve_left (by simp [hxy])
      refine sortedBy_cons_of le y (insertBy le x ys) (ih hys) ?_
      intro z hz
      rcases insertBy_head_cases le x ys with hc | ⟨w, hw1, hw2⟩
      · rw [hc] at hz
        cases hz
        exact hle
      · rw [hw2] at hz
        cases hz
        exact sortedBy_head le y z ys h hw1
    · simp only [if_true]
      exact sortedBy_cons_of le x (y :: ys) h (fun z hz => by cases hz; exact hxy)

theorem sortBy_sorted (le : α → α → Bool)
    (htot : ∀ a b, le a b = true ∨ le b a = true) (l : List α) :
    sortedBy le (sortBy le l) = true := by
  induction l with
  | nil => rfl
  | cons x xs ih => exact sortedBy_insertBy le htot x (sortBy le xs) ih

theorem pyDate_lt_asymm (a b : PyDate) (h : PyDate.lt a b = true) :
    PyDate.lt b a = false := by
  obtain ⟨ya, ma, da⟩ := a
  obtain ⟨yb, mb, db⟩ := b
  simp only [PyDate.lt, Bool.or_eq_true, Bool.and_eq_true, decide_eq_true_eq, beq_iff_eq,
    Bool.or_eq_false_iff, Bool.and_eq_false_iff, decide_eq_false_iff_not,
    beq_eq_false_iff_ne, ne_eq] at h ⊢
  omega

theorem viewsetLe_total (a b : DischargeRow) :
    viewsetLe a b = true ∨ viewsetLe b a = true := by
  unfold viewsetLe
  cases hab : PyDate.lt a.discharge_date b.discharge_date
  · left
    simp
  · right
    simp [pyDate_lt_asymm _ _ hab]

theorem metaLe_total (a b : DischargeRow) :
    metaLe a b = true ∨ metaLe b a = true := by
  unfold metaLe
  cases hab : PyDate.lt a.discharge_date b.discharge_date
  · rcases pyDate_lt_eq_false_cases _ _ hab with heq | hba
    · rcases Nat.le_total b.created_at a.created_at with hc | hc
      · left
        simp [heq, hc]
      · right
        simp [heq, hc]
    · left
      simp [hba]
  · right
    simp [hab]

/-- C7 (as stated) is false: with two rows sharing a discharge date, the
default listing — which sorts only by `['-discharge_date']` — does not order
them by creation time descending: the earlier-created row (timestamp 1) stays
ahead of the later-created one (timestamp 2). -/
theorem discharge_listing_tie_break_cex :
    dischargeSummaryListing [⟨⟨2026, 1, 1⟩, 1⟩, ⟨⟨2026, 1, 1⟩, 2⟩]
      = [⟨⟨2026, 1, 1⟩, 1⟩, ⟨⟨2026, 1, 1⟩, 2⟩]
    ∧ sortedBy metaLe
        (dischargeSummaryListing [⟨⟨2026, 1, 1⟩, 1⟩, ⟨⟨2026, 1, 1⟩, 2⟩]) = false := by
  constructor <;> rfl

/-- C7 (amended): listings under the caller-unspecified default are ordered by
discharge date descending only (the view set overrides the model default and
leaves ties in store order); the discharge-date-then-creation-time descending
order is the model `Meta` default, which holds wherever that default applies. -/
theorem discharge_listing_ordering_amended :
    (∀ rows : List DischargeRow, sortedBy viewsetLe (dischargeSummaryListing rows) = true)
    ∧ (∀ rows : List DischargeRow, sortedBy metaLe (dischargeSummaryMetaOrdered rows) = true) :=
  ⟨fun rows => sortBy_sorted viewsetLe viewsetLe_total rows,
   fun rows => sortBy_sorted metaLe metaLe_total rows⟩

/-- The column constraint of `length_of_stay_days =
models.PositiveIntegerField(editable=False)`: the backing integer column
carries a database-level non-negativity check, so a row is persisted only when
the computed value is not negative. -/
def columnAccepts (s : DischargeSummaryState) : Bool :=
  decide (0 ≤ s.length_of_stay_days)

/-- Persistence through the store: the row is written only when the
`PositiveIntegerField` column constraint accepts it. -/
def persistIfNonneg (s : DischargeSummaryState) : Option DischargeSummaryState :=
  if columnAccepts s then some s else none

/-- The create entry point (`POST` through `DischargeSummaryViewSet` with
`DischargeSummaryCreateSerializer`): both date fields are required
(`DateField` with no default or blank), `validate` runs, the new instance is
saved (computing the length of stay), and the store accepts the row only if
the non-negative column constraint holds. Returns the persisted state. -/
def dischargeSummaryCreate (data : DischargeData) : Option DischargeSummaryState :=
  match data.admission_date, data.discharge_date with
  | some _, some _ =>
    match DischargeSummaryCreateSerializer.validate data with
    | Except.error _ => none
    | Except.ok d =>
      persistIfNonneg (DischargeSummary.save ⟨d.admission_date, d.discharge_date, 0, 0⟩)
  | _, _ => none

/-- The update entry point (`PUT`/`PATCH`): `validate` runs on the submitted
data only (for a partial update an absent date is skipped by the
`data.get(...)` guard), the provided fields are set on the instance, the
instance is saved, and the column constraint gates persistence. -/
def dischargeSummaryUpdate (inst : DischargeSummaryState) (data : DischargeData) :
    Option DischargeSummaryState :=
  match DischargeSummaryCreateSerializer.validate data with
  | Except.error _ => none
  | Except.ok d =>
    persistIfNonneg (DischargeSummary.save
      { inst with
        admission_date :=
          match d.admission_date with
          | some a => some a
          | none => inst.admission_date,
        discharge_date :=
          match d.discharge_date with
          | some x => some x
          | none => inst.discharge_date })

theorem persistIfNonneg_some (s r : DischargeSummaryState)
    (h : persistIfNonneg s = some r) : 0 ≤ r.length_of_stay_days := by
  unfold persistIfNonneg at h
  by_cases hc : columnAccepts s = true
  · rw [if_pos hc] at h
    cases h
    simpa [columnAccepts] using hc
  · rw [if_neg hc] at h
    simp at h

/-- C9: every discharge summary accepted through the create or update entry
point carries a non-negative `length_of_stay_days` (the stored column is a
non-negative integer type), and for a create whose valid dates pass
validation the record is in fact accepted — the column constraint is not what
rejects it. -/
theorem persisted_length_of_stay_nonneg (data : DischargeData)
    (inst r : DischargeSummaryState) :
    (dischargeSummaryCreate data = some r → 0 ≤ r.length_of_stay_days)
    ∧ (dischargeSummaryUpdate inst data = some r → 0 ≤ r.length_of_stay_days)
    ∧ (∀ a d, data.admission_date = some a → data.discharge_date = some d →
        a.valid → d.valid →
        DischargeSummaryCreateSerializer.validate data = Except.ok data →
        ∃ w, dischargeSummaryCreate data = some w ∧ 0 ≤ w.length_of_stay_days) := by
  refine ⟨?_, ?_, ?_⟩
  · intro h
    unfold dischargeSummaryCreate at h
    split at h
    · split at h
      · simp at h
      · exact persistIfNonneg_some _ _ h
    · simp at h
  · intro h
    unfold dischargeSummaryUpdate at h
    split at h
    · simp at h
    · exact persistIfNonneg_some _ _ h
  · intro a d hadm hdis hva hvd hok
    obtain ⟨ad, dd, fr, ft⟩ := data
    simp only at hadm hdis
    subst hadm
    subst hdis
    have hnb : dischargeBeforeAdmission ⟨some a, some d, fr, ft⟩ = false := by
      by_contra hb
      rw [Bool.not_eq_false] at hb
      simp [DischargeSummaryCreateSerializer.validate, hb] at hok
    have hlt : PyDate.lt d a = false := by
      simpa [dischargeBeforeAdmission] using hnb
    have hord : a.toOrdinal ≤ d.toOrdinal := toOrdinal_le_of_not_lt a d hva hvd hlt
    have hlos : 0 ≤ dateSubDays d a := by
      unfold dateSubDays
      omega
    have hsl : (DischargeSummary.save ⟨some a, some d, 0, 0⟩).length_of_stay_days
        = dateSubDays d a := DischargeSummary.save_los _ a d rfl rfl
    have hca : columnAccepts (DischargeSummary.save ⟨some a, some d, 0, 0⟩) = true := by
      unfold columnAccepts
      rw [hsl]
      simpa using hlos
    refine ⟨DischargeSummary.save ⟨some a, some d, 0, 0⟩, ?_, ?_⟩
    · simp only [dischargeSummaryCreate, hok, persistIfNonneg, hca, if_true]
    · rw [hsl]
      exact hlos

theorem persisted_length_of_stay_nonneg_witness :
    dischargeSummaryCreate ⟨some ⟨2026, 1, 1⟩, some ⟨2026, 1, 10⟩, some false, none⟩
      = some ⟨some ⟨2026, 1, 1⟩, some ⟨2026, 1, 10⟩, 9, 0⟩
    ∧ (0 : Int) ≤ (9 : Int) :=
  ⟨rfl,
   (persisted_length_of_stay_nonneg ⟨some ⟨2026, 1, 1⟩, some ⟨2026, 1, 10⟩, some false, none⟩
      ⟨none, none, 0, 0⟩ ⟨some ⟨2026, 1, 1⟩, some ⟨2026, 1, 10⟩, 9, 0⟩).1 rfl⟩

/-- An `EmergencyContact` payload row, as accepted by
`EmergencyContactSerializer` inside `PatientDetailSerializer` (the writable
fields; `id` is read-only and ignored on input). -/
structure EmergencyContactData where
  full_name : String
  relationship : String
  phone_number : String
  alt_phone_number : String
  is_primary : Bool
deriving DecidableEq, Repr

/-- `EmergencyContact.objects.create(...)` in a loop: each created row gets a
fresh auto-increment primary key, starting from the store's next id. -/
def assignContactIds (nextId : Nat) :
    List EmergencyContactData → List (Nat × EmergencyContactData)
  | [] => []
  | d :: ds => (nextId, d) :: assignContactIds (nextId + 1) ds

/-- The emergency-contact portion of `PatientDetailSerializer.update`
(backend/apps/patients/serializers.py): when the payload carries an
`emergency_contacts` list (`is not None`), all of the patient's existing
contact rows are deleted and a new row is created per payload entry; when the
key is absent the rows are untouched. `existing` holds this patient's rows as
(primary key, data) pairs; `nextId` is the store's auto-increment counter. -/
def updateEmergencyContacts (existing : List (Nat × EmergencyContactData)) (nextId : Nat)
    (payload : Option (List EmergencyContactData)) :
    List (Nat × EmergencyContactData) × Nat :=
  match payload with
  | none => (existing, nextId)
  | some ds => (assignContactIds nextId ds, nextId + ds.length)

theorem assignContactIds_map_snd (n : Nat) (ds : List EmergencyContactData) :
    (assignContactIds n ds).map Prod.snd = ds := by
  induction ds generalizing n with
  | nil => rfl
  | cons d ds ih =>
    simp only [assignContactIds, List.map_cons]
    rw [ih (n + 1)]

theorem assignContactIds_fst_ge (n : Nat) (ds : List EmergencyContactData) :
    ∀ p ∈ assignContactIds n ds, n ≤ p.1 := by
  induction ds generalizing n with
  | nil => intro p hp; simp [assignContactIds] at hp
  | cons d ds ih =>
    intro p hp
    simp only [assignContactIds, List.mem_cons] at hp
    rcases hp with hp | hp
    · subst hp
      exact Nat.le_refl n
    · exact Nat.le_of_succ_le (ih (n + 1) p hp)

/-- C10: on a patient update, a present emergency-contacts list replaces all
existing contact rows with freshly created ones — the new rows carry exactly
the payload data, none of the prior row identities survive — while an absent
list leaves the rows unchanged. -/
theorem update_replaces_emergency_contacts
    (existing : List (Nat × EmergencyContactData)) (nextId : Nat)
    (hfresh : ∀ p ∈ existing, p.1 < nextId) :
    (∀ ds, ((updateEmergencyContacts existing nextId (some ds)).1.map Prod.snd = ds)
      ∧ (∀ p ∈ (updateEmergencyContacts existing nextId (some ds)).1,
          ∀ q ∈ existing, p.1 ≠ q.1))
    ∧ updateEmergencyContacts existing nextId none = (existing, nextId) := by
  constructor
  · intro ds
    constructor
    · exact assignContactIds_map_snd nextId ds
    · intro p hp q hq
      have h1 : nextId ≤ p.1 := assignContactIds_fst_ge nextId ds p hp
      have h2 : q.1 < nextId := hfresh q hq
      omega
  · rfl

theorem update_replaces_emergency_contacts_witness :
    ((updateEmergencyContacts [(0, ⟨"Jane", "parent", "+250788000001", "", true⟩)] 1
        (some [⟨"Paul", "sibling", "+250788000002", "", false⟩])).1.map Prod.snd
      = [⟨"Paul", "sibling", "+250788000002", "", false⟩])
    ∧ updateEmergencyContacts [(0, ⟨"Jane", "parent", "+250788000001", "", true⟩)] 1 none
      = ([(0, ⟨"Jane", "parent", "+250788000001", "", true⟩)], 1) :=
  ⟨((update_replaces_emergency_contacts
      [(0, ⟨"Jane", "parent", "+250788000001", "", true⟩)] 1
      (by intro p hp; simp at hp; simp [hp])).1
      [⟨"Paul", "sibling", "+250788000002", "", false⟩]).1,
   (update_replaces_emergency_contacts
      [(0, ⟨"Jane", "parent", "+250788000001", "", true⟩)] 1
      (by intro p hp; simp at hp; simp [hp])).2⟩

theorem address_coordinates_validate_spec_witness :
    AddressSerializer.validate ⟨none, none⟩ = Except.ok ⟨none, none⟩
    ∧ (∃ m, AddressSerializer.validate ⟨some 1, none⟩ = Except.error m) :=
  ⟨(address_coordinates_validate_spec ⟨none, none⟩).2 (Or.inr ⟨rfl, rfl⟩),
   (address_coordinates_validate_spec ⟨some 1, none⟩).1.mpr (Or.inl ⟨by simp, rfl⟩)⟩
